import Mathlib

/-!
# TOTP demo server: account registry, name allocation and verification

A shallow embedding of `main.go`.  The process-wide map `accounts` is passed
explicitly, the handlers return the map they leave behind together with what
they wrote to the client and the sequence of lock operations, map accesses and
external calls they performed.  The external collaborators (`math/rand`, the
`totp` package, the QR renderer, the PNG encoder, the response writer) are
parameters.
-/

namespace TotpTest

/-! ## Data model -/

/-- The part of `otp.Key` the program observes: `orig` is what `%s` prints
(`Key.String()`), `secret` is what `Key.Secret()` returns. -/
structure Key where
  orig : String
  secret : String
  deriving DecidableEq, Repr

/-- The map `accounts` (line 19): account name to key, no name twice. -/
abbrev Registry := AList (fun _ : String => Key)

/-- The slice `letterRunes` (line 20). -/
def letterRunes : List Char :=
  "abcdefghijklmnopqrstuvwxyzABCDEFGHIJKLMNOPQRSTUVWXYZ".toList

/-- The constant `issuer` (line 22). -/
def issuer : String := "totp-issuer@example.com"

/-- A run-time panic of the Go program, with its message. -/
abbrev GoPanic := String

deriving instance DecidableEq for Except

/-- The call `rand.Intn(n)`: it panics for `n <= 0` and otherwise returns a
value in `[0, n)`; `raw` is the outcome of the random source for this draw. -/
def Intn (raw : Nat) (n : Nat) : Except GoPanic Nat :=
  if n = 0 then .error "invalid argument to Intn" else .ok (raw % n)

/-- The indexing `s[i]` of a slice, which panics out of range. -/
def index {α : Type} (s : List α) (i : Nat) : Except GoPanic α :=
  match s[i]? with
  | some a => .ok a
  | none => .error "index out of range"

/-! ## The account name allocator -/

/-- The loop of `generateAccountName` (lines 178-180): the cells `b[i]` are
filled in order, the draw for the first cell being draw number `pos` of the
random source. -/
def fillRunes (rand : Nat → Nat) : Nat → Nat → Except GoPanic (List Char)
  | _, 0 => .ok []
  | pos, k + 1 =>
    match Intn (rand pos) letterRunes.length with
    | .error e => .error e
    | .ok idx =>
      match index letterRunes idx with
      | .error e => .error e
      | .ok c =>
        match fillRunes rand (pos + 1) k with
        | .error e => .error e
        | .ok rest => .ok (c :: rest)

/-- The function `generateAccountName` (lines 176-182).  `make([]rune, n)`
panics on a negative length and on a length the runtime does not allocate;
`makeLimit` is the largest length for which it gives a slice, a property of
the runtime and the machine (on a 64-bit platform at most `2^46`: four bytes a
rune and `2^48` bytes the most the runtime allocates). -/
def generateAccountName (rand : Nat → Nat) (makeLimit : Nat) (pos : Nat) (n : Int) :
    Except GoPanic String :=
  if n < 0 ∨ (makeLimit : Int) < n then .error "makeslice: len out of range"
  else
    match fillRunes rand pos n.toNat with
    | .error e => .error e
    | .ok b => .ok ("account-" ++ String.mk b)

/-! ## Handlers: what they leave behind -/

/-- What a handler does that matters to the registry: the operations on the
mutex `mu`, the accesses to the map `accounts`, the calls of `totp.Validate`
and the lines it logs. -/
inductive Event where
  | lock
  | unlock
  | read (name : String)
  | range
  | write (name : String)
  | validate (passcode : String) (secret : String)
  | log (line : String)
  deriving DecidableEq, Repr

/-- What the client gets: `http.Error(w, msg, code)`, `http.Redirect(w, r, url,
code)`, a body written with a content type (status 200), or nothing because
the handler panicked. -/
inductive Outcome where
  | error (msg : String) (code : Nat)
  | redirect (url : String) (code : Nat)
  | page (contentType : String) (body : String)
  | bytes (contentType : String) (body : List Nat)
  | panic (msg : GoPanic)
  deriving DecidableEq, Repr

/-- The status code of the response, if the handler answered. -/
def Outcome.status : Outcome → Option Nat
  | .error _ code => some code
  | .redirect _ code => some code
  | .page _ _ => some 200
  | .bytes _ _ => some 200
  | .panic _ => none

/-- A finished handler call: the map `accounts` after it, the response, and
the events in the order they happened. -/
structure Result where
  accounts : Registry
  outcome : Outcome
  trace : List Event

/-- The parsed form `r.Form`: the values of each field, none for a field the
request does not carry. -/
abbrev Form := String → List String

/-- The handler `verifyHandler` (lines 119-151); `validate passcode secret` is
what `totp.Validate` answers at the time of the call.  The deferred
`mu.Unlock()` runs when the handler returns. -/
def verifyHandler (validate : String → String → Bool) (accounts : Registry)
    (form : Form) : Result :=
  match index (form "username") 0 with
  | .error e => ⟨accounts, .panic e, []⟩
  | .ok username =>
    if username = "" then
      ⟨accounts, .error "username not given" 400, []⟩
    else
      match index (form "key") 0 with
      | .error e => ⟨accounts, .panic e, []⟩
      | .ok key =>
        if key = "" then
          ⟨accounts, .error "key not given" 400, []⟩
        else
          match accounts.lookup username with
          | none =>
            ⟨accounts, .error "account not found" 401,
              [.lock, .read username, .unlock]⟩
          | some userKey =>
            let line := "username = '" ++ username ++ "', key = '" ++ key ++
              "', userKey = '" ++ userKey.orig ++ "'"
            let result := validate key userKey.secret
            if result then
              ⟨accounts, .error "invalid key" 401,
                [.lock, .read username, .log line,
                  .validate key userKey.secret, .unlock]⟩
            else
              ⟨accounts, .redirect "/success" 301,
                [.lock, .read username, .log line,
                  .validate key userKey.secret, .unlock]⟩

/-- The rendered QR code, as far as the program looks at it. -/
structure Image where
  pixels : List Nat
  deriving DecidableEq, Repr

/-- The collaborators of one call of `generateHandler`: the outcomes of the
random source in the order drawn, the largest slice length `make` allocates
(see `generateAccountName`), `totp.Generate` (issuer, account name),
`key.Image` (key, width, height), `png.Encode` (the bytes it leaves in the
buffer) and the error of `w.Write`, if any. -/
structure GenEnv where
  rand : Nat → Nat
  makeLimit : Nat
  generate : String → String → Except String Key
  image : Key → Nat → Nat → Except String Image
  pngEncode : Image → List Nat
  write : List Nat → Option String

/-- The loop of lines 82-87: draw a name of ten letters until one is not a key
of `accounts`.  Each round uses ten draws; `fuel` bounds the rounds, and the
answer is `none` when the loop is still running after that many. -/
def pickAccount (rand : Nat → Nat) (makeLimit : Nat) (accounts : Registry) :
    Nat → Nat → Option (Except GoPanic String × List Event)
  | 0, _ => none
  | fuel + 1, pos =>
    match generateAccountName rand makeLimit pos 10 with
    | .error e => some (.error e, [])
    | .ok account =>
      match accounts.lookup account with
      | none => some (.ok account, [.read account])
      | some _ =>
        match pickAccount rand makeLimit accounts fuel (pos + 10) with
        | none => none
        | some (r, t) => some (r, .read account :: t)

/-- The handler `generateHandler` (lines 76-117); `none` when the loop that
picks the name is still running after `fuel` rounds. -/
def generateHandler (fuel : Nat) (env : GenEnv) (accounts : Registry) :
    Option Result :=
  match pickAccount env.rand env.makeLimit accounts fuel 0 with
  | none => none
  | some (.error e, t) => some ⟨accounts, .panic e, .lock :: t ++ [.unlock]⟩
  | some (.ok account, t) =>
    match env.generate issuer account with
    | .error err =>
      some ⟨accounts, .error ("Error generating key: " ++ err) 500,
        .lock :: t ++ [.unlock]⟩
    | .ok key =>
      let accounts1 := accounts.insert account key
      match env.image key 256 256 with
      | .error err =>
        some ⟨accounts1, .error ("Error generating image: " ++ err) 500,
          .lock :: t ++ [.write account, .unlock]⟩
      | .ok img =>
        let buf := env.pngEncode img
        match env.write buf with
        | some err =>
          some ⟨accounts1, .bytes "image/png" buf,
            .lock :: t ++ [.write account,
              .log ("Error writing image to http client: " ++ err), .unlock]⟩
        | none =>
          some ⟨accounts1, .bytes "image/png" buf,
            .lock :: t ++ [.write account, .unlock]⟩

/-- The handler `mainHandler` (lines 48-54).  The order in which Go ranges over
a map is not fixed; the links are listed here in the order of the keys. -/
def mainHandler (accounts : Registry) : Result :=
  ⟨accounts,
    .page "text/html"
      ("<a href=\"/new\">Generate new account</a> or log into existing:<p>" ++
        String.join (accounts.keys.map fun accountName =>
          "<li><a href=\"/login/" ++ accountName ++ "\">" ++ accountName ++ "</a>")),
    [.range]⟩

/-- Provisioning calls one after the other, each with its own bound on the
rounds and its own collaborators, as the lock serialises them: the registry
at the end and the results of the calls, first call first. -/
def runGenerate : List (Nat × GenEnv) → Registry → Option (Registry × List Result)
  | [], accounts => some (accounts, [])
  | (fuel, env) :: rest, accounts =>
    match generateHandler fuel env accounts with
    | none => none
    | some r =>
      match runGenerate rest r.accounts with
      | none => none
      | some (final, rs) => some (final, r :: rs)

/-- The names under which a trace stores a record. -/
def writes : List Event → List String
  | [] => []
  | .write name :: t => name :: writes t
  | _ :: t => writes t

/-- Whether every access to `accounts` in a trace happens while `mu` is held;
`held` says whether it is held where the trace starts. -/
def accessesGuarded : Bool → List Event → Bool
  | _, [] => true
  | _, .lock :: t => accessesGuarded true t
  | _, .unlock :: t => accessesGuarded false t
  | held, .read _ :: t => held && accessesGuarded held t
  | held, .range :: t => held && accessesGuarded held t
  | held, .write _ :: t => held && accessesGuarded held t
  | held, .validate _ _ :: t => accessesGuarded held t
  | held, .log _ :: t => accessesGuarded held t

/-- The calls of `totp.Validate` in a trace. -/
def validateCalls : List Event → List (String × String)
  | [] => []
  | .validate passcode secret :: t => (passcode, secret) :: validateCalls t
  | _ :: t => validateCalls t

/-- The names under which the calls of a run store their records, first call
first. -/
def chosen : List Result → List String
  | [] => []
  | r :: rs => writes r.trace ++ chosen rs

/-- A run of provisioning calls in which every call gets through: within its
bound on the rounds the call draws, in some round, a name that is not a key of
the registry as the earlier calls left it (the names of the rounds before that
one being keys of it), key generation succeeds for that name, and the same
holds for the remaining calls on the registry with that name inserted. -/
def Completes : List (Nat × GenEnv) → Registry → Prop
  | [], _ => True
  | (fuel, env) :: rest, accounts =>
    ∃ round name key, round < fuel ∧
      generateAccountName env.rand env.makeLimit (10 * round) 10 = .ok name ∧
      name ∉ accounts ∧
      (∀ earlier, earlier < round → ∃ taken,
        generateAccountName env.rand env.makeLimit (10 * earlier) 10 = .ok taken ∧
        taken ∈ accounts) ∧
      env.generate issuer name = .ok key ∧
      Completes rest (accounts.insert name key)

/-! ## Concrete data used in the examples -/

/-- A key whose secret is `SECRET1`. -/
def key1 : Key := ⟨"otpauth://totp/x?secret=SECRET1", "SECRET1"⟩

/-- A registry with the single account `account-ABCDEFGHIJ`. -/
def reg1 : Registry := (∅ : Registry).insert "account-ABCDEFGHIJ" key1

/-- A form with one value for `username` and one for `key`. -/
def formOf (username key : String) : Form := fun field =>
  if field = "username" then [username] else if field = "key" then [key] else []

/-- A form with a value for `key` only. -/
def formKeyOnly (key : String) : Form := fun field =>
  if field = "key" then [key] else []

/-- A form with a value for `username` only. -/
def formUserOnly (username : String) : Form := fun field =>
  if field = "username" then [username] else []

/-- A validation primitive for which `123456` is the one valid code of
`SECRET1`. -/
def validate1 : String → String → Bool := fun passcode secret =>
  passcode == "123456" && secret == "SECRET1"

/-- The largest length of a slice of runes on a 64-bit platform, `2^46`. -/
def makeLimit64 : Nat := 70368744177664

/-- Collaborators that all succeed, with a random source that always draws
`raw`. -/
def envOk (raw : Nat) : GenEnv :=
  ⟨fun _ => raw, makeLimit64, fun _ account => .ok ⟨account, "S"⟩, fun _ _ _ => .ok ⟨[]⟩,
    fun _ => [], fun _ => none⟩

/-- Collaborators whose key generation fails. -/
def envGenFails : GenEnv :=
  ⟨fun _ => 0, makeLimit64, fun _ _ => .error "no entropy", fun _ _ _ => .ok ⟨[]⟩,
    fun _ => [], fun _ => none⟩

/-- Collaborators whose key generation succeeds and whose rendering fails. -/
def envImageFails : GenEnv :=
  ⟨fun _ => 0, makeLimit64, fun _ account => .ok ⟨account, "S"⟩,
    fun _ _ _ => .error "too long",
    fun _ => [], fun _ => none⟩

/-- The result of the call with `envImageFails` on the empty registry. -/
def resImageFails : Result :=
  ⟨(∅ : Registry).insert "account-aaaaaaaaaa" ⟨"account-aaaaaaaaaa", "S"⟩,
    .error "Error generating image: too long" 500,
    [.lock, .read "account-aaaaaaaaaa", .write "account-aaaaaaaaaa", .unlock]⟩

/-- The result of the call with `envGenFails` on the empty registry. -/
def resGenFails : Result :=
  ⟨∅, .error "Error generating key: no entropy" 500,
    [.lock, .read "account-aaaaaaaaaa", .unlock]⟩

/-- The result of the call with `envOk 0` on `reg1`. -/
def resOk : Result :=
  ⟨reg1.insert "account-aaaaaaaaaa" ⟨"account-aaaaaaaaaa", "S"⟩, .bytes "image/png" [],
    [.lock, .read "account-aaaaaaaaaa", .write "account-aaaaaaaaaa", .unlock]⟩

/-- The result of the call with `envOk 0` on the empty registry. -/
def resFirst : Result :=
  ⟨(∅ : Registry).insert "account-aaaaaaaaaa" ⟨"account-aaaaaaaaaa", "S"⟩,
    .bytes "image/png" [],
    [.lock, .read "account-aaaaaaaaaa", .write "account-aaaaaaaaaa", .unlock]⟩

/-- Collaborators that all succeed, with a random source that draws `0` ten
times and `1` from then on. -/
def envRetry : GenEnv :=
  ⟨fun i => if i < 10 then 0 else 1, makeLimit64, fun _ account => .ok ⟨account, "S"⟩,
    fun _ _ _ => .ok ⟨[]⟩, fun _ => [], fun _ => none⟩

/-- Two provisioning calls; the second draws the name of the first and tries
again. -/
def calls2 : List (Nat × GenEnv) := [(1, envOk 0), (2, envRetry)]

/-- The registry after `calls2`. -/
def final2 : Registry :=
  ((∅ : Registry).insert "account-aaaaaaaaaa" ⟨"account-aaaaaaaaaa", "S"⟩).insert
    "account-bbbbbbbbbb" ⟨"account-bbbbbbbbbb", "S"⟩

/-- The results of `calls2`. -/
def results2 : List Result :=
  [⟨(∅ : Registry).insert "account-aaaaaaaaaa" ⟨"account-aaaaaaaaaa", "S"⟩,
      .bytes "image/png" [],
      [.lock, .read "account-aaaaaaaaaa", .write "account-aaaaaaaaaa", .unlock]⟩,
    ⟨final2, .bytes "image/png" [],
      [.lock, .read "account-aaaaaaaaaa", .read "account-bbbbbbbbbb",
        .write "account-bbbbbbbbbb", .unlock]⟩]

end TotpTest

namespace TotpTest

/-! ## The account name allocator -/

theorem letterRunes_length : letterRunes.length = 52 := by decide

theorem index_letterRunes (i : Nat) (h : i < 52) :
    ∃ c, index letterRunes i = .ok c ∧ c ∈ letterRunes := by
  have hlt : i < letterRunes.length := by rw [letterRunes_length]; exact h
  refine ⟨letterRunes[i], ?_, List.getElem_mem hlt⟩
  simp [index, List.getElem?_eq_getElem hlt]

theorem fillRunes_ok (rand : Nat → Nat) (k : Nat) :
    ∀ pos, ∃ cs, fillRunes rand pos k = .ok cs ∧ cs.length = k ∧
      ∀ c ∈ cs, c ∈ letterRunes := by
  induction k with
  | zero => intro pos; exact ⟨[], rfl, rfl, by simp⟩
  | succ k ih =>
    intro pos
    obtain ⟨c, hc, hmem⟩ := index_letterRunes (rand pos % 52) (Nat.mod_lt _ (by decide))
    obtain ⟨rest, hrest, hlen, hall⟩ := ih (pos + 1)
    refine ⟨c :: rest, ?_, by simp [hlen], ?_⟩
    · simp [fillRunes, Intn, letterRunes_length, hc, hrest]
    · intro d hd
      rcases List.mem_cons.mp hd with h | h
      · exact h ▸ hmem
      · exact hall d h

theorem generateAccountName_of_fill (rand : Nat → Nat) (makeLimit pos n : Nat)
    (cs : List Char) (hn : n ≤ makeLimit) (h : fillRunes rand pos n = .ok cs) :
    generateAccountName rand makeLimit pos (n : Int) = .ok ("account-" ++ String.mk cs) := by
  have h1 : ¬ ((n : Int) < 0 ∨ (makeLimit : Int) < (n : Int)) := by omega
  simp only [generateAccountName, h1, if_false, Int.toNat_ofNat, h]

theorem generateAccountName_refuses (rand : Nat → Nat) (makeLimit pos : Nat) (n : Int)
    (hn : n < 0 ∨ (makeLimit : Int) < n) :
    generateAccountName rand makeLimit pos n = .error "makeslice: len out of range" := by
  simp only [generateAccountName, hn, if_true]

/-- C6 as stated fails: on a 64-bit platform the length `2^62` is a length
`n >= 0` for which `generateAccountName` panics in `make` and returns no
name. -/
theorem generateAccountName_huge :
    (0 : Int) ≤ 4611686018427387904 ∧
    generateAccountName (fun _ => 0) makeLimit64 0 4611686018427387904 =
      .error "makeslice: len out of range" :=
  ⟨by decide, generateAccountName_refuses _ _ _ _ (Or.inr (by decide))⟩

/-- C6, amended: for every length `n` from 0 up to the largest length for
which `make` gives a slice, and every outcome of the random source,
`generateAccountName n` returns (it does not panic) the prefix `account-`
followed by exactly `n` characters of `letterRunes`, so `n + 8` characters in
all; `letterRunes` holds 52 distinct letters, and every index drawn by
`rand.Intn(len(letterRunes))` is in range.  For a negative or a larger length
it panics. -/
theorem generateAccountName_spec (rand : Nat → Nat) (makeLimit pos n : Nat)
    (hn : n ≤ makeLimit) :
    (∃ cs : List Char,
      generateAccountName rand makeLimit pos (n : Int) =
        .ok ("account-" ++ String.mk cs) ∧
      cs.length = n ∧ (∀ c ∈ cs, c ∈ letterRunes) ∧
      ("account-" ++ String.mk cs).length = n + 8) ∧
    letterRunes.length = 52 ∧ letterRunes.Nodup ∧
    (∀ c ∈ letterRunes, c.isAlpha = true) ∧
    (∀ raw, ∃ i, Intn raw letterRunes.length = .ok i ∧ i < letterRunes.length ∧
      ∃ c, index letterRunes i = .ok c) ∧
    (∀ m : Int, m < 0 ∨ (makeLimit : Int) < m →
      generateAccountName rand makeLimit pos m = .error "makeslice: len out of range") := by
  refine ⟨?_, letterRunes_length, by decide, by decide, ?_,
    fun m hm => generateAccountName_refuses rand makeLimit pos m hm⟩
  · obtain ⟨cs, hcs, hlen, hall⟩ := fillRunes_ok rand n pos
    refine ⟨cs, ?_, hlen, hall, ?_⟩
    · exact generateAccountName_of_fill rand makeLimit pos n cs hn hcs
    · rw [String.length_append]
      show 8 + cs.length = n + 8
      omega
  · intro raw
    have hlt : raw % 52 < 52 := Nat.mod_lt _ (by decide)
    obtain ⟨c, hc, _⟩ := index_letterRunes (raw % 52) hlt
    exact ⟨raw % 52, by simp [Intn, letterRunes_length], by rw [letterRunes_length]; exact hlt,
      c, hc⟩

theorem generateAccountName_spec_witness :
    (10 : Nat) ≤ makeLimit64 ∧
    (∃ cs : List Char,
      generateAccountName (fun i => i + 25) makeLimit64 0 ((10 : Nat) : Int) =
        .ok ("account-" ++ String.mk cs) ∧
      cs.length = 10 ∧ (∀ c ∈ cs, c ∈ letterRunes) ∧
      ("account-" ++ String.mk cs).length = 10 + 8) ∧
    letterRunes.length = 52 ∧ letterRunes.Nodup ∧
    (∀ c ∈ letterRunes, c.isAlpha = true) ∧
    (∀ raw, ∃ i, Intn raw letterRunes.length = .ok i ∧ i < letterRunes.length ∧
      ∃ c, index letterRunes i = .ok c) ∧
    (∀ m : Int, m < 0 ∨ (makeLimit64 : Int) < m →
      generateAccountName (fun i => i + 25) makeLimit64 0 m =
        .error "makeslice: len out of range") :=
  ⟨by decide, generateAccountName_spec (fun i => i + 25) makeLimit64 0 10 (by decide)⟩

/-! ## Verification -/

theorem verify_known_account (validate : String → String → Bool) (accounts : Registry)
    (form : Form) (username code : String) (us ks : List String) (userKey : Key)
    (hu : form "username" = username :: us) (hk : form "key" = code :: ks)
    (hune : username ≠ "") (hcne : code ≠ "")
    (hreg : accounts.lookup username = some userKey) :
    (verifyHandler validate accounts form).outcome =
      if validate code userKey.secret then .error "invalid key" 401
      else .redirect "/success" 301 := by
  simp only [verifyHandler, hu, hk, index, List.getElem?_cons_zero, hune, hcne, if_false, hreg]
  split <;> rfl

theorem verify_missing_username (validate : String → String → Bool) (accounts : Registry)
    (form : Form) (h : form "username" = []) :
    verifyHandler validate accounts form = ⟨accounts, .panic "index out of range", []⟩ := by
  simp [verifyHandler, h, index]

theorem verify_missing_key (validate : String → String → Bool) (accounts : Registry)
    (form : Form) (username : String) (us : List String)
    (hu : form "username" = username :: us) (hune : username ≠ "")
    (h : form "key" = []) :
    verifyHandler validate accounts form = ⟨accounts, .panic "index out of range", []⟩ := by
  simp [verifyHandler, hu, h, index, hune]

theorem verify_guarded (validate : String → String → Bool) (accounts : Registry)
    (form : Form) :
    accessesGuarded false (verifyHandler validate accounts form).trace = true := by
  unfold verifyHandler
  repeat' split
  all_goals first | rfl | (dsimp only; split <;> rfl)

/-- C2: for every registry, every non-empty username that is not a key of
the registry and every non-empty submitted code, `verifyHandler` answers
`account not found` with status 401, not the 301 redirect, whatever the
validation primitive would return; the primitive is not called. -/
theorem verify_unknown_account (validate : String → String → Bool) (accounts : Registry)
    (form : Form) (username code : String) (us ks : List String)
    (hu : form "username" = username :: us) (hk : form "key" = code :: ks)
    (hune : username ≠ "") (hcne : code ≠ "") (hnot : username ∉ accounts) :
    (verifyHandler validate accounts form).outcome = .error "account not found" 401 ∧
    (verifyHandler validate accounts form).outcome.status = some 401 ∧
    (verifyHandler validate accounts form).outcome.status ≠ some 301 ∧
    validateCalls (verifyHandler validate accounts form).trace = [] := by
  have hreg : accounts.lookup username = none := AList.lookup_eq_none.mpr hnot
  simp [verifyHandler, hu, hk, index, hune, hcne, hreg, Outcome.status, validateCalls]

theorem verify_unknown_account_witness :
    (verifyHandler validate1 reg1 (formOf "ghost" "123456")).outcome =
      .error "account not found" 401 ∧
    (verifyHandler validate1 reg1 (formOf "ghost" "123456")).outcome.status = some 401 ∧
    (verifyHandler validate1 reg1 (formOf "ghost" "123456")).outcome.status ≠ some 301 ∧
    validateCalls (verifyHandler validate1 reg1 (formOf "ghost" "123456")).trace = [] :=
  verify_unknown_account validate1 reg1 (formOf "ghost" "123456") "ghost" "123456" [] []
    (by decide) (by decide) (by decide) (by decide) (by decide)

/-- C7: for every registry and every verify request whose form carries both
fields, if the first value of `username` is empty or the first value of `key`
is empty then `verifyHandler` answers with status 400 (so neither 301 nor
401), does not call the validation primitive, gives the same result whatever
the primitive is, and leaves the registry as it was. -/
theorem verify_empty_field (validate : String → String → Bool) (accounts : Registry)
    (form : Form) (username code : String) (us ks : List String)
    (hu : form "username" = username :: us) (hk : form "key" = code :: ks)
    (hempty : username = "" ∨ code = "") :
    (∃ msg, (verifyHandler validate accounts form).outcome = .error msg 400) ∧
    (verifyHandler validate accounts form).outcome.status = some 400 ∧
    (verifyHandler validate accounts form).outcome.status ≠ some 301 ∧
    (verifyHandler validate accounts form).outcome.status ≠ some 401 ∧
    validateCalls (verifyHandler validate accounts form).trace = [] ∧
    (∀ validate2, verifyHandler validate2 accounts form =
      verifyHandler validate accounts form) ∧
    (verifyHandler validate accounts form).accounts = accounts := by
  by_cases h1 : username = ""
  · simp [verifyHandler, hu, index, h1, Outcome.status, validateCalls]
  · have h2 : code = "" := hempty.resolve_left h1
    simp [verifyHandler, hu, hk, index, h1, h2, Outcome.status, validateCalls]

theorem verify_empty_field_witness :
    (∃ msg, (verifyHandler validate1 reg1 (formOf "account-ABCDEFGHIJ" "")).outcome =
      .error msg 400) ∧
    (verifyHandler validate1 reg1 (formOf "account-ABCDEFGHIJ" "")).outcome.status = some 400 ∧
    (verifyHandler validate1 reg1 (formOf "account-ABCDEFGHIJ" "")).outcome.status ≠ some 301 ∧
    (verifyHandler validate1 reg1 (formOf "account-ABCDEFGHIJ" "")).outcome.status ≠ some 401 ∧
    validateCalls (verifyHandler validate1 reg1 (formOf "account-ABCDEFGHIJ" "")).trace = [] ∧
    (∀ validate2, verifyHandler validate2 reg1 (formOf "account-ABCDEFGHIJ" "") =
      verifyHandler validate1 reg1 (formOf "account-ABCDEFGHIJ" "")) ∧
    (verifyHandler validate1 reg1 (formOf "account-ABCDEFGHIJ" "")).accounts = reg1 :=
  verify_empty_field validate1 reg1 (formOf "account-ABCDEFGHIJ" "") "account-ABCDEFGHIJ" ""
    [] [] (by decide) (by decide) (Or.inr rfl)

/-- C9: for every registry and every verify request, on every branch (the
panic on a missing field included), the registry after `verifyHandler` equals
the registry before it and the handler stores nothing; so a second
verification, whatever its request, looks up the same record for every
identifier as the first. -/
theorem verify_registry_unchanged (validate validate2 : String → String → Bool)
    (accounts : Registry) (form form2 : Form) (name : String) :
    (verifyHandler validate accounts form).accounts = accounts ∧
    writes (verifyHandler validate accounts form).trace = [] ∧
    (verifyHandler validate accounts form).accounts.lookup name = accounts.lookup name ∧
    (verifyHandler validate2 (verifyHandler validate accounts form).accounts
      form2).accounts.lookup name = accounts.lookup name := by
  have hacc : ∀ (v : String → String → Bool) (a : Registry) (f : Form),
      (verifyHandler v a f).accounts = a := by
    intro v a f
    unfold verifyHandler
    repeat' split
    all_goals first | rfl | (dsimp only; split <;> rfl)
  have hw : writes (verifyHandler validate accounts form).trace = [] := by
    unfold verifyHandler
    repeat' split
    all_goals first | rfl | (dsimp only; split <;> rfl)
  refine ⟨hacc validate accounts form, hw, ?_, ?_⟩
  · rw [hacc validate accounts form]
  · rw [hacc validate2, hacc validate accounts form]

/-- C1 (the code inverts the answer of the validation primitive): with
`account-ABCDEFGHIJ` registered under `SECRET1` and `123456` the one code the
primitive accepts, `verifyHandler` answers the accepted code with `invalid
key`, status 401, and the code `654321`, which the primitive does not accept,
with the 301 redirect to `/success`. -/
theorem verify_inverts_validation :
    validate1 "123456" key1.secret = true ∧
    (verifyHandler validate1 reg1 (formOf "account-ABCDEFGHIJ" "123456")).outcome =
      .error "invalid key" 401 ∧
    validate1 "654321" key1.secret = false ∧
    (verifyHandler validate1 reg1 (formOf "account-ABCDEFGHIJ" "654321")).outcome =
      .redirect "/success" 301 := by
  decide

/-- C8 (a missing field makes the handler panic): for every registry and
every validation primitive, a request without the field `username` ends in
the panic `index out of range` and no response, not in status 400; so does a
request with a username and without the field `key`. -/
theorem verify_missing_field_panics (validate : String → String → Bool)
    (accounts : Registry) (key : String) :
    (verifyHandler validate accounts (formKeyOnly key)).outcome =
      .panic "index out of range" ∧
    (verifyHandler validate accounts (formKeyOnly key)).outcome.status = none ∧
    (verifyHandler validate accounts (formUserOnly "account-ABCDEFGHIJ")).outcome =
      .panic "index out of range" ∧
    (verifyHandler validate accounts (formUserOnly "account-ABCDEFGHIJ")).outcome.status =
      none := by
  have h1 := verify_missing_username validate accounts (formKeyOnly key) (by simp [formKeyOnly])
  have h2 := verify_missing_key validate accounts (formUserOnly "account-ABCDEFGHIJ")
    "account-ABCDEFGHIJ" [] (by simp [formUserOnly]) (by decide) (by simp [formUserOnly])
  simp [h1, h2, Outcome.status]

/-! ## Provisioning -/

theorem pickAccount_spec (rand : Nat → Nat) (makeLimit : Nat) (accounts : Registry)
    (fuel : Nat) :
    ∀ pos r t, pickAccount rand makeLimit accounts fuel pos = some (r, t) →
      ((∃ name, r = .ok name ∧ name ∉ accounts) ∨ ∃ e, r = .error e) ∧
      ∀ l, writes (t ++ l) = writes l ∧
        accessesGuarded true (t ++ l) = accessesGuarded true l := by
  induction fuel with
  | zero => intro pos r t h; simp [pickAccount] at h
  | succ fuel ih =>
    intro pos r t h
    rw [pickAccount] at h
    cases hname : generateAccountName rand makeLimit pos 10 with
    | error e =>
      rw [hname] at h
      simp only [Option.some.injEq, Prod.mk.injEq] at h
      obtain ⟨rfl, rfl⟩ := h
      exact ⟨Or.inr ⟨e, rfl⟩, fun l => by simp⟩
    | ok name =>
      rw [hname] at h
      dsimp only at h
      cases hl : accounts.lookup name with
      | none =>
        rw [hl] at h
        simp only [Option.some.injEq, Prod.mk.injEq] at h
        obtain ⟨rfl, rfl⟩ := h
        exact ⟨Or.inl ⟨name, rfl, AList.lookup_eq_none.mp hl⟩, fun l => by
          simp [writes, accessesGuarded]⟩
      | some v =>
        rw [hl] at h
        cases hrec : pickAccount rand makeLimit accounts fuel (pos + 10) with
        | none => rw [hrec] at h; simp at h
        | some p =>
          obtain ⟨r1, t1⟩ := p
          rw [hrec] at h
          simp only [Option.some.injEq, Prod.mk.injEq] at h
          obtain ⟨rfl, rfl⟩ := h
          obtain ⟨hr, ht⟩ := ih (pos + 10) r1 t1 hrec
          exact ⟨hr, fun l => by simp [writes, accessesGuarded, ht l]⟩

theorem pickAccount_first (rand : Nat → Nat) (makeLimit : Nat) (accounts : Registry)
    (round : Nat) :
    ∀ pos name fuel, round < fuel →
      generateAccountName rand makeLimit (pos + 10 * round) 10 = .ok name →
      name ∉ accounts →
      (∀ earlier, earlier < round → ∃ taken,
        generateAccountName rand makeLimit (pos + 10 * earlier) 10 = .ok taken ∧
        taken ∈ accounts) →
      ∃ t, pickAccount rand makeLimit accounts fuel pos = some (.ok name, t) := by
  induction round with
  | zero =>
    intro pos name fuel hfuel hname hnot _
    obtain ⟨f, rfl⟩ : ∃ f, fuel = f + 1 := ⟨fuel - 1, by omega⟩
    simp only [Nat.mul_zero, Nat.add_zero] at hname
    rw [pickAccount, hname]
    dsimp only
    rw [AList.lookup_eq_none.mpr hnot]
    exact ⟨_, rfl⟩
  | succ round ih =>
    intro pos name fuel hfuel hname hnot hearlier
    obtain ⟨f, rfl⟩ : ∃ f, fuel = f + 1 := ⟨fuel - 1, by omega⟩
    obtain ⟨first, hfirst, hin⟩ := hearlier 0 (by omega)
    simp only [Nat.mul_zero, Nat.add_zero] at hfirst
    obtain ⟨v, hv⟩ := Option.isSome_iff_exists.mp (AList.lookup_isSome.mpr hin)
    have hpos : ∀ k, pos + 10 + 10 * k = pos + 10 * (k + 1) := fun k => by omega
    obtain ⟨t, ht⟩ := ih (pos + 10) name f (by omega) (by rw [hpos]; exact hname) hnot
      (fun e he => by rw [hpos]; exact hearlier (e + 1) (by omega))
    rw [pickAccount, hfirst]
    dsimp only
    rw [hv]
    dsimp only
    rw [ht]
    exact ⟨_, rfl⟩

theorem generateHandler_cases (fuel : Nat) (env : GenEnv) (accounts : Registry) (r : Result)
    (h : generateHandler fuel env accounts = some r) :
    accessesGuarded false r.trace = true ∧
    ((∃ e, r.outcome = .panic e ∧ r.accounts = accounts ∧ writes r.trace = []) ∨
     ∃ name t, pickAccount env.rand env.makeLimit accounts fuel 0 = some (.ok name, t) ∧
      name ∉ accounts ∧
      ((∃ err, env.generate issuer name = .error err ∧ r.accounts = accounts ∧
          r.outcome = .error ("Error generating key: " ++ err) 500 ∧
          writes r.trace = []) ∨
       (∃ key, env.generate issuer name = .ok key ∧
          r.accounts = accounts.insert name key ∧ writes r.trace = [name] ∧
          ((∃ err, env.image key 256 256 = .error err ∧
              r.outcome = .error ("Error generating image: " ++ err) 500) ∨
           (∃ img, env.image key 256 256 = .ok img ∧
              r.outcome = .bytes "image/png" (env.pngEncode img)))))) := by
  unfold generateHandler at h
  cases hp : pickAccount env.rand env.makeLimit accounts fuel 0 with
  | none => rw [hp] at h; simp at h
  | some p =>
    obtain ⟨res, t⟩ := p
    obtain ⟨hres, ht⟩ := pickAccount_spec env.rand env.makeLimit accounts fuel 0 res t hp
    rw [hp] at h
    rcases hres with ⟨name, rfl, hnot⟩ | ⟨e, rfl⟩
    · simp only at h
      cases hg : env.generate issuer name with
      | error err =>
        rw [hg] at h
        simp only [Option.some.injEq] at h
        subst h
        refine ⟨?_, Or.inr ⟨name, t, rfl, hnot, Or.inl ⟨err, hg, rfl, rfl, ?_⟩⟩⟩
        · simp [accessesGuarded, ht]
        · simp [writes, ht]
      | ok key =>
        rw [hg] at h
        simp only at h
        cases hi : env.image key 256 256 with
        | error err =>
          rw [hi] at h
          simp only [Option.some.injEq] at h
          subst h
          refine ⟨?_, Or.inr ⟨name, t, rfl, hnot,
            Or.inr ⟨key, hg, rfl, ?_, Or.inl ⟨err, hi, rfl⟩⟩⟩⟩
          · simp [accessesGuarded, ht]
          · simp [writes, ht]
        | ok img =>
          rw [hi] at h
          simp only at h
          cases hw : env.write (env.pngEncode img) with
          | none =>
            rw [hw] at h
            simp only [Option.some.injEq] at h
            subst h
            refine ⟨?_, Or.inr ⟨name, t, rfl, hnot,
              Or.inr ⟨key, hg, rfl, ?_, Or.inr ⟨img, hi, rfl⟩⟩⟩⟩
            · simp [accessesGuarded, ht]
            · simp [writes, ht]
          | some err =>
            rw [hw] at h
            simp only [Option.some.injEq] at h
            subst h
            refine ⟨?_, Or.inr ⟨name, t, rfl, hnot,
              Or.inr ⟨key, hg, rfl, ?_, Or.inr ⟨img, hi, rfl⟩⟩⟩⟩
            · simp [accessesGuarded, ht]
            · simp [writes, ht]
    · simp only [Option.some.injEq] at h
      subst h
      refine ⟨?_, Or.inl ⟨e, rfl, rfl, ?_⟩⟩
      · simp [accessesGuarded, ht]
      · simp [writes, ht]

theorem generateHandler_returns (fuel : Nat) (env : GenEnv) (accounts : Registry)
    (h : (pickAccount env.rand env.makeLimit accounts fuel 0).isSome = true) :
    (generateHandler fuel env accounts).isSome = true := by
  unfold generateHandler
  cases hp : pickAccount env.rand env.makeLimit accounts fuel 0 with
  | none => rw [hp] at h; simp at h
  | some p =>
    obtain ⟨res, t⟩ := p
    simp only
    repeat' split
    all_goals first | rfl | simp_all

theorem generateHandler_stores (fuel : Nat) (env : GenEnv) (accounts : Registry)
    (round : Nat) (name : String) (key : Key) (hfuel : round < fuel)
    (hname : generateAccountName env.rand env.makeLimit (10 * round) 10 = .ok name)
    (hnot : name ∉ accounts)
    (hearlier : ∀ earlier, earlier < round → ∃ taken,
      generateAccountName env.rand env.makeLimit (10 * earlier) 10 = .ok taken ∧
      taken ∈ accounts)
    (hkey : env.generate issuer name = .ok key) :
    ∃ r, generateHandler fuel env accounts = some r ∧
      r.accounts = accounts.insert name key ∧ writes r.trace = [name] := by
  obtain ⟨t, ht⟩ := pickAccount_first env.rand env.makeLimit accounts round 0 name fuel hfuel
    (by rw [Nat.zero_add]; exact hname) hnot
    (fun e he => by rw [Nat.zero_add]; exact hearlier e he)
  have hsome : (generateHandler fuel env accounts).isSome = true :=
    generateHandler_returns fuel env accounts (by rw [ht]; rfl)
  obtain ⟨r, hr⟩ := Option.isSome_iff_exists.mp hsome
  refine ⟨r, hr, ?_⟩
  obtain ⟨_, hcase⟩ := generateHandler_cases fuel env accounts r hr
  rcases hcase with ⟨e, hout, _, _⟩ | ⟨name1, t1, hp, _, hcase⟩
  · exfalso
    unfold generateHandler at hr
    rw [ht] at hr
    simp only [hkey] at hr
    revert hr
    repeat' split
    all_goals (intro hr; simp only [Option.some.injEq] at hr; subst hr; simp at hout)
  · rw [ht] at hp
    simp only [Option.some.injEq, Prod.mk.injEq, Except.ok.injEq] at hp
    obtain ⟨rfl, _⟩ := hp
    rcases hcase with ⟨err, hg, _⟩ | ⟨key1, hg, hacc, hw, _⟩
    · rw [hkey] at hg; simp at hg
    · rw [hkey] at hg
      simp only [Except.ok.injEq] at hg
      subst hg
      exact ⟨hacc, hw⟩

theorem generateHandler_loops (fuel : Nat) (env : GenEnv) (accounts : Registry)
    (h : ∀ pos, ∃ name v, generateAccountName env.rand env.makeLimit pos 10 = .ok name ∧
      accounts.lookup name = some v) :
    generateHandler fuel env accounts = none := by
  have hp : ∀ fuel pos, pickAccount env.rand env.makeLimit accounts fuel pos = none := by
    intro fuel
    induction fuel with
    | zero => intro pos; rfl
    | succ fuel ih =>
      intro pos
      obtain ⟨name, v, hname, hv⟩ := h pos
      rw [pickAccount, hname]
      dsimp only
      rw [hv]
      dsimp only
      rw [ih]
  unfold generateHandler
  rw [hp]

/-- C3 as stated fails: with an empty registry, a key generation that
succeeds and a rendering that fails, `generateHandler` answers with status
500 and the registry holds the new account. -/
theorem generate_render_failure_inserts :
    generateHandler 1 envImageFails ∅ = some resImageFails ∧
    resImageFails.outcome.status = some 500 ∧
    resImageFails.accounts.keys = ["account-aaaaaaaaaa"] ∧
    resImageFails.accounts ≠ (∅ : Registry) :=
  ⟨rfl, by decide, by decide, fun h => absurd (congrArg AList.keys h) (by decide)⟩

/-- C3, amended: whenever `generateHandler` ends in a 500 response, either
key generation failed and the registry equals the registry before the call,
or key generation succeeded, rendering failed, and the registry is the one
before the call with the new key inserted under a name that was not a key
before. -/
theorem generate_error_registry (fuel : Nat) (env : GenEnv) (accounts : Registry)
    (r : Result) (h : generateHandler fuel env accounts = some r)
    (h500 : r.outcome.status = some 500) :
    (∃ name err, name ∉ accounts ∧ env.generate issuer name = .error err ∧
      r.outcome = .error ("Error generating key: " ++ err) 500 ∧
      r.accounts = accounts) ∨
    (∃ name key err, name ∉ accounts ∧ env.generate issuer name = .ok key ∧
      env.image key 256 256 = .error err ∧
      r.outcome = .error ("Error generating image: " ++ err) 500 ∧
      r.accounts = accounts.insert name key) := by
  obtain ⟨_, hcase⟩ := generateHandler_cases fuel env accounts r h
  rcases hcase with ⟨e, hout, _, _⟩ | ⟨name, _, _, hnot, hcase⟩
  · rw [hout] at h500
    simp [Outcome.status] at h500
  rcases hcase with ⟨err, hg, hacc, hout, _⟩ | ⟨key, hg, hacc, _, hrender⟩
  · exact Or.inl ⟨name, err, hnot, hg, hout, hacc⟩
  · rcases hrender with ⟨err, hi, hout⟩ | ⟨img, _, hout⟩
    · exact Or.inr ⟨name, key, err, hnot, hg, hi, hout, hacc⟩
    · rw [hout] at h500
      simp [Outcome.status] at h500

theorem generate_error_registry_witness :
    (∃ name err, name ∉ (∅ : Registry) ∧ envGenFails.generate issuer name = .error err ∧
      resGenFails.outcome = .error ("Error generating key: " ++ err) 500 ∧
      resGenFails.accounts = ∅) ∨
    (∃ name key err, name ∉ (∅ : Registry) ∧ envGenFails.generate issuer name = .ok key ∧
      envGenFails.image key 256 256 = .error err ∧
      resGenFails.outcome = .error ("Error generating image: " ++ err) 500 ∧
      resGenFails.accounts = (∅ : Registry).insert name key) :=
  generate_error_registry 1 envGenFails ∅ resGenFails rfl rfl

/-- C5: for every registry and every call of `generateHandler` that returns,
every entry present before the call is present with the same record after it,
and the registry after the call is either the one before or the one before
with one record inserted under a name that was not a key before: nothing is
overwritten, updated or removed. -/
theorem generate_frame (fuel : Nat) (env : GenEnv) (accounts : Registry) (r : Result)
    (h : generateHandler fuel env accounts = some r) :
    (∀ name key, accounts.lookup name = some key → r.accounts.lookup name = some key) ∧
    ((r.accounts = accounts ∧ writes r.trace = []) ∨
      ∃ name key, name ∉ accounts ∧ writes r.trace = [name] ∧
        r.accounts = accounts.insert name key) := by
  obtain ⟨_, hcase⟩ := generateHandler_cases fuel env accounts r h
  rcases hcase with ⟨e, _, hacc, hw⟩ | ⟨name, _, _, hnot, hcase⟩
  · exact ⟨fun n k hk => by rw [hacc]; exact hk, Or.inl ⟨hacc, hw⟩⟩
  rcases hcase with ⟨err, _, hacc, _, hw⟩ | ⟨key, _, hacc, hw, _⟩
  · exact ⟨fun n k hk => by rw [hacc]; exact hk, Or.inl ⟨hacc, hw⟩⟩
  · refine ⟨fun n k hk => ?_, Or.inr ⟨name, key, hnot, hw, hacc⟩⟩
    have hne : n ≠ name := by
      rintro rfl
      rw [AList.lookup_eq_none.mpr hnot] at hk
      simp at hk
    rw [hacc, AList.lookup_insert_ne hne]
    exact hk

theorem generate_frame_witness :
    (∀ name key, reg1.lookup name = some key → resOk.accounts.lookup name = some key) ∧
    ((resOk.accounts = reg1 ∧ writes resOk.trace = []) ∨
      ∃ name key, name ∉ reg1 ∧ writes resOk.trace = [name] ∧
        resOk.accounts = reg1.insert name key) :=
  generate_frame 1 (envOk 0) reg1 resOk rfl

theorem runGenerate_total (calls : List (Nat × GenEnv)) :
    ∀ accounts, Completes calls accounts →
      ∃ final rs, runGenerate calls accounts = some (final, rs) ∧
        rs.length = calls.length ∧ (chosen rs).length = calls.length ∧
        (chosen rs).Nodup ∧ (∀ name ∈ chosen rs, name ∉ accounts) ∧
        final.keys.length = accounts.keys.length + calls.length ∧
        (∀ name, name ∈ final ↔ name ∈ accounts ∨ name ∈ chosen rs) := by
  induction calls with
  | nil =>
    intro accounts _
    exact ⟨accounts, [], rfl, by simp [chosen]⟩
  | cons c rest ih =>
    intro accounts hc
    obtain ⟨fuel, env⟩ := c
    obtain ⟨round, name, key, hfuel, hname, hnot, hearlier, hkey, hrest⟩ := hc
    obtain ⟨r, hr, hacc, hw⟩ :=
      generateHandler_stores fuel env accounts round name key hfuel hname hnot hearlier hkey
    obtain ⟨final, rs, hrun, h1, h2, h3, h4, h5, h6⟩ := ih (accounts.insert name key) hrest
    have hmem : ∀ n, n ∈ accounts.insert name key ↔ n = name ∨ n ∈ accounts :=
      fun n => AList.mem_insert accounts
    have hkeys : (accounts.insert name key).keys.length = accounts.keys.length + 1 := by
      rw [AList.keys_insert,
        List.erase_of_not_mem (fun hk => hnot (AList.mem_keys.mpr hk))]
      simp
    refine ⟨final, r :: rs, ?_, by simp [h1], by simp [chosen, hw, h2], ?_, ?_, ?_, ?_⟩
    · rw [runGenerate, hr]
      dsimp only
      rw [hacc, hrun]
    · simp only [chosen, hw, List.singleton_append, List.nodup_cons]
      exact ⟨fun hin => h4 name hin ((hmem name).mpr (Or.inl rfl)), h3⟩
    · intro n hn
      simp only [chosen, hw, List.singleton_append, List.mem_cons] at hn
      rcases hn with rfl | hn
      · exact hnot
      · exact fun hin => h4 n hn ((hmem n).mpr (Or.inr hin))
    · rw [h5, hkeys]; simp only [List.length_cons]; omega
    · intro n
      rw [h6 n, hmem n]
      simp only [chosen, hw, List.singleton_append, List.mem_cons]
      tauto

theorem envOk_zero_name (pos : Nat) :
    generateAccountName (envOk 0).rand (envOk 0).makeLimit pos 10 =
      .ok "account-aaaaaaaaaa" := by
  have h := generateAccountName_of_fill (fun _ => 0) makeLimit64 pos 10
    ['a', 'a', 'a', 'a', 'a', 'a', 'a', 'a', 'a', 'a'] (by decide) rfl
  exact h

/-- C4 as stated fails: take two provisioning calls whose key generation
succeeds for every name and whose random source always draws `0`.  The first
call returns with the registry holding `account-aaaaaaaaaa`; the second draws
that name in every round, so it never returns, whatever the bound on its
rounds, and the run of the two calls never ends with two entries. -/
theorem generate_second_call_loops :
    (∀ name, ∃ key, (envOk 0).generate issuer name = .ok key) ∧
    generateHandler 1 (envOk 0) ∅ = some resFirst ∧
    resFirst.accounts.keys = ["account-aaaaaaaaaa"] ∧
    (∀ fuel, generateHandler fuel (envOk 0) resFirst.accounts = none) ∧
    (∀ fuel1 fuel2, runGenerate [(fuel1, envOk 0), (fuel2, envOk 0)] ∅ = none) := by
  have hloop : ∀ fuel, generateHandler fuel (envOk 0) resFirst.accounts = none :=
    fun fuel => generateHandler_loops fuel (envOk 0) resFirst.accounts
      (fun pos => ⟨"account-aaaaaaaaaa", ⟨"account-aaaaaaaaaa", "S"⟩,
        envOk_zero_name pos, by decide⟩)
  refine ⟨fun name => ⟨_, rfl⟩, rfl, by decide, hloop, ?_⟩
  intro fuel1 fuel2
  cases fuel1 with
  | zero => rfl
  | succ f =>
    have hfirst : generateHandler (f + 1) (envOk 0) ∅ = some resFirst := by
      unfold generateHandler
      rw [pickAccount, envOk_zero_name 0]
      rfl
    rw [runGenerate, hfirst]
    dsimp only
    rw [runGenerate, hloop fuel2]

/-- C4, amended: for every `N` and every run of `N` provisioning calls, one
after the other, starting from the empty registry, in which every call draws
in some round a name that is not yet a key of the registry and key generation
succeeds each time: all `N` calls return, they store their records under `N`
names, pairwise distinct, and the registry ends with exactly `N` entries,
whose keys are those names. -/
theorem generate_distinct (calls : List (Nat × GenEnv)) (h : Completes calls ∅) :
    ∃ final rs, runGenerate calls ∅ = some (final, rs) ∧
      rs.length = calls.length ∧ (chosen rs).length = calls.length ∧
      (chosen rs).Nodup ∧ final.keys.length = calls.length ∧ final.keys.Nodup ∧
      (∀ name, name ∈ final.keys ↔ name ∈ chosen rs) := by
  obtain ⟨final, rs, hrun, h1, h2, h3, _, h5, h6⟩ := runGenerate_total calls ∅ h
  refine ⟨final, rs, hrun, h1, h2, h3, by simpa using h5, final.keys_nodup, fun n => ?_⟩
  rw [← AList.mem_keys, h6 n]
  simp

theorem calls2_completes : Completes calls2 ∅ :=
  ⟨0, "account-aaaaaaaaaa", ⟨"account-aaaaaaaaaa", "S"⟩, by decide, rfl, by decide,
    fun e he => absurd he (Nat.not_lt_zero e), rfl,
    1, "account-bbbbbbbbbb", ⟨"account-bbbbbbbbbb", "S"⟩, by decide, rfl, by decide,
    fun e he => by
      obtain rfl : e = 0 := by omega
      exact ⟨"account-aaaaaaaaaa", rfl, by decide⟩,
    rfl, trivial⟩

theorem generate_distinct_witness :
    Completes calls2 ∅ ∧
    runGenerate calls2 ∅ = some (final2, results2) ∧
    ∃ final rs, runGenerate calls2 ∅ = some (final, rs) ∧
      rs.length = calls2.length ∧ (chosen rs).length = calls2.length ∧
      (chosen rs).Nodup ∧ final.keys.length = calls2.length ∧ final.keys.Nodup ∧
      (∀ name, name ∈ final.keys ↔ name ∈ chosen rs) :=
  ⟨calls2_completes, rfl, generate_distinct calls2 calls2_completes⟩

/-! ## The lock -/

theorem generate_guarded (fuel : Nat) (env : GenEnv) (accounts : Registry) (r : Result)
    (h : generateHandler fuel env accounts = some r) :
    accessesGuarded false r.trace = true :=
  (generateHandler_cases fuel env accounts r h).1

/-- C10 (`mainHandler` reads the map without the lock): for every registry,
`mainHandler` ranges over `accounts` and performs no operation on `mu`, so
its access happens while the lock is not held; the accesses of
`verifyHandler` all happen while it is held. -/
theorem main_reads_unlocked (validate : String → String → Bool) (accounts : Registry)
    (form : Form) :
    (mainHandler accounts).trace = [.range] ∧
    accessesGuarded false (mainHandler accounts).trace = false ∧
    accessesGuarded false (verifyHandler validate accounts form).trace = true :=
  ⟨rfl, rfl, verify_guarded validate accounts form⟩

end TotpTest
